import Mathlib

/-!
Shallow embedding of the sampling engine of the Audit-Sample-Selection-Tool
repository (src/worker/src/sampler.py, with the supporting record model from
src/worker/src/models.py and the row-cleaning entry points from
src/worker/src/cleaner.py).  Python floats are embedded as exact rationals
(ℚ); Python's `int(x)` conversion is embedded as truncation toward zero.
-/

/-- Balance classification of a transaction, derived from the sign of its
amount (`models.py`, `Literal["debit", "credit", "zero"]`). -/
inductive BalanceCategory
  | debit
  | credit
  | zero
deriving DecidableEq

/-- The balance-type filter parameter (`models.py`, `BalanceType`). -/
inductive BalanceType
  | debit
  | credit
  | both
deriving DecidableEq

/-- Selection label assigned by the engine
(`Literal["High Value", "Random"]` in `models.py`). -/
inductive SelectionType
  | highValue
  | random
deriving DecidableEq

/-- The exclusion reason returned by `_apply_balance_filters`
(`Literal["zero", "balance"]`). -/
inductive ExcludeReason
  | zero
  | balance
deriving DecidableEq

/-- `models.CleanedTransaction`: the canonical transaction record consumed by
the sampler.  `effective_date`, `document_type` and `description` are carried
opaquely as optional strings (they hold the results of the cleaner's
`_parse_date` / `_clean_string` and never influence sampling).  The pydantic
validator guarantees `amount_abs ≥ 0` for records built by the cleaner. -/
structure CleanedTransaction where
  transaction_id : Option String
  amount_signed : ℚ
  amount_abs : ℚ
  effective_date : Option String
  document_type : Option String
  description : Option String
  balance_category : Option BalanceCategory
  source_row_index : ℕ
  selection_type : Option SelectionType
deriving DecidableEq

/-- `models.SamplingParameters`: sampling configuration.  The pydantic field
and model validators restrict tolerable/expected/assurance as recorded in
`SamplingParameters.Valid` below. -/
structure SamplingParameters where
  tolerable_misstatement : ℚ
  expected_misstatement : ℚ
  assurance_factor : ℚ
  balance_type : BalanceType
  high_value_override : Option ℚ
  random_seed : ℕ
  exclude_zero_amounts : Bool
deriving DecidableEq

/-- The construction-time constraints pydantic enforces on
`SamplingParameters` (`gt=0`, `ge=0`, `validate_relationships`, and `gt=0` on
the optional override). -/
def SamplingParameters.Valid (p : SamplingParameters) : Prop :=
  0 < p.tolerable_misstatement ∧
    0 ≤ p.expected_misstatement ∧
    0 < p.assurance_factor ∧
    p.expected_misstatement < p.tolerable_misstatement ∧
    (match p.high_value_override with
      | none => True
      | some o => 0 < o)

instance (p : SamplingParameters) : Decidable p.Valid := by
  unfold SamplingParameters.Valid
  exact match p.high_value_override with
    | none => instDecidableAnd
    | some _ => instDecidableAnd

/-- `SamplingParameters.sampling_interval` (models.py): the override when
supplied, else `(tolerable − expected) / assurance`. -/
def SamplingParameters.samplingInterval (p : SamplingParameters) : ℚ :=
  match p.high_value_override with
  | some o => o
  | none =>
      (p.tolerable_misstatement - p.expected_misstatement) / p.assurance_factor

/-- `models.SampleStatistics`: summary metrics for the final sample. -/
structure SampleStatistics where
  population_size : ℕ
  population_balance_abs : ℚ
  sampling_interval : ℚ
  high_value_count : ℕ
  random_sample_count : ℕ
  coverage_abs : ℚ
  coverage_percent : ℚ
  excluded_zero_amounts : ℕ
  excluded_due_to_balance : ℕ
deriving DecidableEq

/-- `cleaner._derive_balance`: classify a signed amount.  (The Python
function's trailing `return None` is reachable only for NaN floats, which do
not exist in the exact-rational embedding.) -/
def deriveBalance (amount : ℚ) : Option BalanceCategory :=
  if amount > 0 then some BalanceCategory.credit
  else if amount < 0 then some BalanceCategory.debit
  else some BalanceCategory.zero

/-- Equality test between a record's balance category and the requested
balance type, embedding the Python string comparison
`balance_category != params.balance_type` over the literals
`"debit" | "credit" | "zero"` vs `"debit" | "credit" | "both"`. -/
def catMatchesType : BalanceCategory → BalanceType → Bool
  | BalanceCategory.debit, BalanceType.debit => true
  | BalanceCategory.credit, BalanceType.credit => true
  | _, _ => false

/-- `sampler._apply_balance_filters`: decide whether a row stays in the
sampling population, and the exclusion reason otherwise.  Python's
`amount_abs or 0.0` coalesces both `None` and `0.0` to `0.0`, i.e.
`Option.getD · 0`. -/
def applyBalanceFilters (amount_abs : Option ℚ)
    (balance_category : Option BalanceCategory) (params : SamplingParameters) :
    Bool × Option ExcludeReason :=
  let abs_value := amount_abs.getD 0
  if params.exclude_zero_amounts ∧ abs_value = 0 then
    (false, some ExcludeReason.zero)
  else if params.balance_type = BalanceType.both then
    (true, none)
  else
    match balance_category with
    | none => (false, some ExcludeReason.balance)
    | some c =>
        if catMatchesType c params.balance_type then (true, none)
        else (false, some ExcludeReason.balance)

/-- `sampler._filter_population`: split the cleaned transactions into the
retained population plus the two exclusion counters, preserving input order. -/
def filterPopulation (transactions : List CleanedTransaction)
    (params : SamplingParameters) : List CleanedTransaction × ℕ × ℕ :=
  match transactions with
  | [] => ([], 0, 0)
  | txn :: rest =>
      let (filtered, zf, bf) := filterPopulation rest params
      match applyBalanceFilters (some txn.amount_abs) txn.balance_category
          params with
      | (true, _) => (txn :: filtered, zf, bf)
      | (false, reason) =>
          if reason = some ExcludeReason.zero then (filtered, zf + 1, bf)
          else (filtered, zf, bf + 1)

/-- `sampler._mark_transaction`: clone a transaction with the selection label
set. -/
def markTransaction (txn : CleanedTransaction)
    (selection_type : SelectionType) : CleanedTransaction :=
  { txn with selection_type := some selection_type }

/-- `sampler._select_high_value`: transactions strictly exceeding the
sampling interval, labeled `High Value`. -/
def selectHighValue (transactions : List CleanedTransaction) (interval : ℚ) :
    List CleanedTransaction :=
  (transactions.filter (fun t => interval < t.amount_abs)).map
    (fun t => markTransaction t SelectionType.highValue)

/-- `sampler._exclude_transactions`: drop from the population every
transaction whose source row index occurs among the already-selected ones. -/
def excludeTransactions (population : List CleanedTransaction)
    (to_exclude : List CleanedTransaction) : List CleanedTransaction :=
  population.filter
    (fun t =>
      ¬ t.source_row_index ∈ to_exclude.map (fun e => e.source_row_index))

@[simp] theorem markTransaction_amount_abs (t : CleanedTransaction)
    (s : SelectionType) : (markTransaction t s).amount_abs = t.amount_abs :=
  rfl

@[simp] theorem markTransaction_source_row_index (t : CleanedTransaction)
    (s : SelectionType) :
    (markTransaction t s).source_row_index = t.source_row_index :=
  rfl

@[simp] theorem markTransaction_selection_type (t : CleanedTransaction)
    (s : SelectionType) : (markTransaction t s).selection_type = some s :=
  rfl

/-- Model of Python's `int(x)` conversion on a float value: truncation toward
zero. -/
def pyTruncInt (q : ℚ) : ℤ :=
  if 0 ≤ q then ⌊q⌋ else -⌊-q⌋

/-- Model of `random.Random(seed)` (Python standard library, external to the
repository): a deterministic pseudo-random generator fully determined by its
seed.  A 64-bit linear congruential generator stands in for the Mersenne
Twister; the claims only rely on the generator being a deterministic function
of the seed, never on its distribution. -/
structure PyRandom where
  state : ℕ
deriving DecidableEq

/-- `random.Random(seed)`: construct the generator from a seed. -/
def PyRandom.new (seed : ℕ) : PyRandom :=
  ⟨(seed + 1442695040888963407) % 2 ^ 64⟩

/-- Advance the generator one step, producing a raw 64-bit value. -/
def PyRandom.next (r : PyRandom) : ℕ × PyRandom :=
  let s := (r.state * 6364136223846793005 + 1442695040888963407) % 2 ^ 64
  (s, ⟨s⟩)

/-- Model of `rng.randint(lo, hi)`: a value in `[lo, hi]`, new generator
state alongside. -/
def PyRandom.randint (r : PyRandom) (lo hi : ℕ) : ℕ × PyRandom :=
  let (v, r') := r.next
  (lo + v % (hi - lo + 1), r')

/-- Model of `rng.sample(xs, k)` (sampling without replacement): repeatedly
pick a position in the not-yet-chosen remainder and remove it.  Returns
`min k xs.length` elements, all drawn from `xs`, deterministically in the
generator state. -/
def PyRandom.sampleAux {α : Type} : PyRandom → List α → ℕ → List α
  | _, _, 0 => []
  | r, xs, k + 1 =>
      match hxs : xs with
      | [] => []
      | _ :: _ =>
          let (j, r') := r.randint 0 (xs.length - 1)
          let i := j % xs.length
          have hi : i < xs.length := by
            refine Nat.mod_lt _ ?_
            simp [hxs]
          xs.get ⟨i, hi⟩ :: PyRandom.sampleAux r' (xs.eraseIdx i) k

/-- `rng.sample(xs, k)`. -/
def PyRandom.sample {α : Type} (r : PyRandom) (xs : List α) (k : ℕ) :
    List α :=
  PyRandom.sampleAux r xs k

/-- `sampler._select_random_sample`: size the random stratum from the
remaining balance (`int(remaining_balance / interval + 0.9999)`, capped at the
candidate count) and draw it without replacement using the seeded generator.
The negative-size branch of Python's `rng.sample` is unreachable because
pydantic validates `amount_abs ≥ 0`. -/
def selectRandomSample (transactions : List CleanedTransaction)
    (interval : ℚ) (seed : ℕ) : List CleanedTransaction :=
  if transactions = [] then []
  else
    let remaining_balance := (transactions.map (fun t => t.amount_abs)).sum
    if remaining_balance = 0 then []
    else
      let sample_size : ℤ :=
        min (pyTruncInt (remaining_balance / interval + 9999 / 10000))
          (transactions.length : ℤ)
      if sample_size = 0 then []
      else
        ((PyRandom.new seed).sample transactions sample_size.toNat).map
          (fun t => markTransaction t SelectionType.random)

/-- `sampler._combine_samples`: concatenate the strata, high value first. -/
def combineSamples (high_value random_sample : List CleanedTransaction) :
    List CleanedTransaction :=
  high_value ++ random_sample

/-- `sampler._build_statistics`: coverage and count metrics over the filtered
population and final sample. -/
def buildStatistics (population sample : List CleanedTransaction)
    (interval : ℚ) (zero_filtered balance_filtered : ℕ) : SampleStatistics :=
  let pop_balance := (population.map (fun t => t.amount_abs)).sum
  let coverage_abs := (sample.map (fun t => t.amount_abs)).sum
  let coverage_percent :=
    if pop_balance > 0 then coverage_abs / pop_balance * 100 else 0
  let high_value_count :=
    (sample.filter
        (fun t => t.selection_type = some SelectionType.highValue)).length
  let random_count :=
    (sample.filter
        (fun t => t.selection_type = some SelectionType.random)).length
  { population_size := population.length
    population_balance_abs := pop_balance
    sampling_interval := interval
    high_value_count := high_value_count
    random_sample_count := random_count
    coverage_abs := coverage_abs
    coverage_percent := coverage_percent
    excluded_zero_amounts := zero_filtered
    excluded_due_to_balance := balance_filtered }

/-- `sampler.generate_sample`: the batch engine.  Raising `ValueError` is
embedded as `Except.error` with the source's message. -/
def generateSample (cleaned : List CleanedTransaction)
    (params : SamplingParameters) :
    Except String (List CleanedTransaction × SampleStatistics) :=
  let fz := filterPopulation cleaned params
  let filtered := fz.1
  let zero_filtered := fz.2.1
  let balance_filtered := fz.2.2
  if filtered = [] then
    Except.error "Population is empty after applying balance filters."
  else
    let interval := params.samplingInterval
    let high_value := selectHighValue filtered interval
    let remaining := excludeTransactions filtered high_value
    let random_sample := selectRandomSample remaining interval
      params.random_seed
    let sample := combineSamples high_value random_sample
    let stats := buildStatistics filtered sample interval zero_filtered
      balance_filtered
    Except.ok (sample, stats)

/-- A raw CSV row as the streaming sampler sees it after `_normalize_row` and
field parsing: `amount` holds the result of `cleaner._parse_amount` (`none`
for a missing or invalid amount), `effective_date` the (opaque) result of
`cleaner._parse_date`, and the string fields the results of
`cleaner._clean_string`.  The claims quantify over these parse outcomes, not
over the CSV string syntax. -/
structure RawRow where
  transaction_id : Option String
  amount : Option ℚ
  effective_date : Option String
  document_type : Option String
  description : Option String
deriving DecidableEq

/-- The `CleanedTransaction` both streaming passes (and the cleaner's
`_create_transaction`) materialize from a parsed row at a given source row
index, with the given selection label. -/
def rowTxn (idx : ℕ) (r : RawRow) (signed : ℚ)
    (label : Option SelectionType) : CleanedTransaction :=
  { transaction_id := r.transaction_id
    amount_signed := signed
    amount_abs := |signed|
    effective_date := r.effective_date
    document_type := r.document_type
    description := r.description
    balance_category := deriveBalance signed
    source_row_index := idx
    selection_type := label }

/-- Accumulator threaded through pass 1 of `generate_sample_streaming`:
running totals, the materialized high-value subset, and the exclusion
counters. -/
structure Pass1State where
  total_abs : ℚ
  population_size : ℕ
  high_value : List CleanedTransaction
  excluded_zero : ℕ
  excluded_balance : ℕ
deriving DecidableEq

/-- The empty pass-1 accumulator (`total_abs = 0.0`, etc.). -/
def Pass1State.init : Pass1State :=
  { total_abs := 0
    population_size := 0
    high_value := []
    excluded_zero := 0
    excluded_balance := 0 }

/-- One iteration of the pass-1 loop body (`sampler.py` lines 127–159): skip
unparseable amounts, apply the population filter, accumulate totals, and
collect high-value rows. -/
def pass1Step (params : SamplingParameters) (interval : ℚ)
    (s : Pass1State) (idx : ℕ) (raw : RawRow) : Pass1State :=
  match raw.amount with
  | none => s
  | some signed =>
      let abs_val := |signed|
      let balance_cat := deriveBalance signed
      let (incl, reason) :=
        applyBalanceFilters (some abs_val) balance_cat params
      if incl then
        let s' := { s with
          population_size := s.population_size + 1
          total_abs := s.total_abs + abs_val }
        if abs_val > interval then
          { s' with high_value :=
              s'.high_value ++ [rowTxn idx raw signed
                (some SelectionType.highValue)] }
        else s'
      else if reason = some ExcludeReason.zero then
        { s with excluded_zero := s.excluded_zero + 1 }
      else
        { s with excluded_balance := s.excluded_balance + 1 }

/-- The pass-1 loop: `for idx, raw in enumerate(reader)`. -/
def pass1Go (params : SamplingParameters) (interval : ℚ) :
    ℕ → Pass1State → List RawRow → Pass1State
  | _, s, [] => s
  | idx, s, r :: rest =>
      pass1Go params interval (idx + 1) (pass1Step params interval s idx r)
        rest

/-- Pass 1 over the whole source. -/
def pass1 (rows : List RawRow) (params : SamplingParameters)
    (interval : ℚ) : Pass1State :=
  pass1Go params interval 0 Pass1State.init rows

/-- The pass-1 random-stratum target (`sampler.py` lines 166–167):
`tentative_size = remaining_abs / interval if interval > 0 else 0` followed
by `random_size = int(tentative_size + 0.9999)`. -/
def streamRandomSize (remaining_abs interval : ℚ) : ℤ :=
  let tentative_size := if interval > 0 then remaining_abs / interval else 0
  pyTruncInt (tentative_size + 9999 / 10000)

/-- Accumulator threaded through pass 2: the count of qualifying rows seen,
the reservoir, and the generator state. -/
structure Pass2State where
  seen : ℕ
  reservoir : List CleanedTransaction
  rng : PyRandom
deriving DecidableEq

/-- One iteration of the pass-2 loop body (`sampler.py` lines 193–248):
skip unparseable, filtered-out, and high-value rows; fill the reservoir up to
`k`, then replace slot `j` when `j = randint(0, seen−1) < k`. -/
def pass2Step (params : SamplingParameters) (interval : ℚ) (k : ℕ)
    (st : Pass2State) (idx : ℕ) (raw : RawRow) : Pass2State :=
  match raw.amount with
  | none => st
  | some signed =>
      let abs_val := |signed|
      let balance_cat := deriveBalance signed
      let (incl, _) :=
        applyBalanceFilters (some abs_val) balance_cat params
      if ¬ incl then st
      else if abs_val > interval then st
      else
        let seen := st.seen + 1
        if st.reservoir.length < k then
          { st with
            seen := seen
            reservoir := st.reservoir ++
              [rowTxn idx raw signed (some SelectionType.random)] }
        else
          let (j, rng') := st.rng.randint 0 (seen - 1)
          if j < k then
            { seen := seen
              reservoir := st.reservoir.set j
                (rowTxn idx raw signed (some SelectionType.random))
              rng := rng' }
          else
            { st with seen := seen, rng := rng' }

/-- The pass-2 loop: `for idx, raw in enumerate(reader)`. -/
def pass2Go (params : SamplingParameters) (interval : ℚ) (k : ℕ) :
    ℕ → Pass2State → List RawRow → Pass2State
  | _, st, [] => st
  | idx, st, r :: rest =>
      pass2Go params interval k (idx + 1)
        (pass2Step params interval k st idx r) rest

/-- `sampler.generate_sample_streaming`: the two-pass streaming engine over a
re-readable source, embedded as a list of parsed rows.  Raising `ValueError`
is embedded as `Except.error` with the source's message. -/
def generateSampleStreaming (rows : List RawRow)
    (params : SamplingParameters) :
    Except String (List CleanedTransaction × SampleStatistics) :=
  let interval := params.samplingInterval
  let p1 := pass1 rows params interval
  if p1.population_size = 0 then
    Except.error "Population is empty after applying balance filters."
  else
    let remaining_abs :=
      p1.total_abs - (p1.high_value.map (fun t => t.amount_abs)).sum
    let random_size := streamRandomSize remaining_abs interval
    let k := (max 0 random_size).toNat
    let reservoir :=
      if k > 0 then
        (pass2Go params interval k 0
            { seen := 0, reservoir := [],
              rng := PyRandom.new params.random_seed } rows).reservoir
      else []
    let sample := p1.high_value ++ reservoir
    let coverage_abs := (sample.map (fun t => t.amount_abs)).sum
    let coverage_percent :=
      if p1.total_abs > 0 then coverage_abs / p1.total_abs * 100 else 0
    Except.ok (sample,
      { population_size := p1.population_size
        population_balance_abs := p1.total_abs
        sampling_interval := interval
        high_value_count := p1.high_value.length
        random_sample_count := reservoir.length
        coverage_abs := coverage_abs
        coverage_percent := coverage_percent
        excluded_zero_amounts := p1.excluded_zero
        excluded_due_to_balance := p1.excluded_balance })

/-- `cleaner._process_rows` / `_process_single_row` / `_create_transaction`
specialized to the fields the sampler reads: a row materializes into a
`CleanedTransaction` at its raw index exactly when its amount parses; the
pydantic fallback (`return None` on validation failure) is unreachable since
`amount_abs = |amount| ≥ 0`. -/
def processRowsGo : ℕ → List RawRow → List CleanedTransaction
  | _, [] => []
  | idx, r :: rest =>
      match r.amount with
      | none => processRowsGo (idx + 1) rest
      | some signed => rowTxn idx r signed none :: processRowsGo (idx + 1) rest

/-- `cleaner.clean_data`'s transaction list for a parsed source. -/
def processRows (rows : List RawRow) : List CleanedTransaction :=
  processRowsGo 0 rows

/-- Inclusion test a cleaned transaction undergoes in `_filter_population`. -/
def inclP (params : SamplingParameters) (t : CleanedTransaction) : Bool :=
  (applyBalanceFilters (some t.amount_abs) t.balance_category params).1

/-- Sample parameter set used to instantiate universally quantified
theorems at concrete inputs. -/
def exParams : SamplingParameters :=
  { tolerable_misstatement := 180
    expected_misstatement := 0
    assurance_factor := 2
    balance_type := BalanceType.both
    high_value_override := none
    random_seed := 1
    exclude_zero_amounts := true }

/-- `exParams` with the zero-amount exclusion switched off. -/
def exParamsKeepZero : SamplingParameters :=
  { exParams with exclude_zero_amounts := false }

/-- `exParams` restricted to credit records. -/
def exParamsCredit : SamplingParameters :=
  { exParams with balance_type := BalanceType.credit }

/-- A concrete cleaned transaction with the given nonnegative signed amount
and row index (so its absolute amount is the amount itself). -/
def exTxn (a : ℚ) (idx : ℕ) : CleanedTransaction :=
  { transaction_id := none
    amount_signed := a
    amount_abs := a
    effective_date := none
    document_type := none
    description := none
    balance_category := deriveBalance a
    source_row_index := idx
    selection_type := none }

/-- A concrete raw row with the given parsed-amount outcome. -/
def exRow (a : Option ℚ) : RawRow :=
  { transaction_id := none
    amount := a
    effective_date := none
    document_type := none
    description := none }

/-- C7: the population filter checks the zero-amount exclusion before the
balance-type rule — with the exclusion enabled, a record of absolute amount 0
is dropped with reason `zero` whatever the balance type and category; when
the balance type is not `both`, a record passes only if its category matches
the requested type exactly, and a null category is excluded with reason
`balance`. -/
theorem filter_checks_zero_before_balance (params : SamplingParameters) :
    (∀ (a : Option ℚ) (bc : Option BalanceCategory),
        params.exclude_zero_amounts = true → a.getD 0 = 0 →
          applyBalanceFilters a bc params = (false, some ExcludeReason.zero))
    ∧ (∀ (a : Option ℚ) (bc : Option BalanceCategory),
        params.balance_type ≠ BalanceType.both →
        (applyBalanceFilters a bc params).1 = true →
          (bc = some BalanceCategory.debit ∧
              params.balance_type = BalanceType.debit) ∨
            (bc = some BalanceCategory.credit ∧
              params.balance_type = BalanceType.credit))
    ∧ (∀ a : Option ℚ,
        params.balance_type ≠ BalanceType.both →
        ¬ (params.exclude_zero_amounts = true ∧ a.getD 0 = 0) →
          applyBalanceFilters a none params =
            (false, some ExcludeReason.balance)) := by
  refine ⟨?_, ?_, ?_⟩
  · intro a bc hz ha
    simp [applyBalanceFilters, hz, ha]
  · intro a bc hbt hpass
    unfold applyBalanceFilters at hpass
    by_cases hz : params.exclude_zero_amounts = true ∧ a.getD 0 = 0
    · simp [hz] at hpass
    · simp only [hz, if_false] at hpass
      rw [if_neg hbt] at hpass
      match bc with
      | none => simp at hpass
      | some c =>
          simp only at hpass
          by_cases hm : catMatchesType c params.balance_type = true
          · cases c <;> cases hb : params.balance_type <;>
              simp_all [catMatchesType]
          · simp [hm] at hpass
  · intro a hbt hz
    simp only [applyBalanceFilters, if_neg hz, if_neg hbt]

/-- Witness for C7 at a concrete input: with `exParamsCredit` (zero exclusion
on, balance type `credit`) a zero-amount record is excluded with reason
`zero`. -/
theorem filter_checks_zero_before_balance_witness :
    applyBalanceFilters (some 0) (some BalanceCategory.zero) exParamsCredit =
      (false, some ExcludeReason.zero) :=
  (filter_checks_zero_before_balance exParamsCredit).1 (some 0)
    (some BalanceCategory.zero) (by decide) (by decide)

/-- C10: a null absolute amount is coalesced to 0 — with the zero exclusion
enabled the record is excluded with reason `zero` (no balance-type check
runs), and with it disabled the decision agrees with the decision for any
amount at all, i.e. only the balance-type rule applies. -/
theorem null_amount_coalesced (params : SamplingParameters)
    (bc : Option BalanceCategory) :
    (params.exclude_zero_amounts = true →
      applyBalanceFilters none bc params = (false, some ExcludeReason.zero))
    ∧ (params.exclude_zero_amounts = false →
      ∀ a : Option ℚ,
        applyBalanceFilters none bc params = applyBalanceFilters a bc
          params) := by
  constructor
  · intro hz
    simp [applyBalanceFilters, hz]
  · intro hz a
    simp [applyBalanceFilters, hz]

/-- Witness for C10 at a concrete input: with zero exclusion off, a null
amount is judged exactly like the amount 5 (by the balance rule alone). -/
theorem null_amount_coalesced_witness :
    applyBalanceFilters none (some BalanceCategory.credit) exParamsKeepZero =
      applyBalanceFilters (some 5) (some BalanceCategory.credit)
        exParamsKeepZero :=
  (null_amount_coalesced exParamsKeepZero (some BalanceCategory.credit)).2
    (by decide) (some 5)

/-- C9: a streaming row whose amount fails to parse is skipped entirely by
both passes — the pass-1 and pass-2 loop bodies leave their accumulators
(population size, balance, high-value list, exclusion counters, reservoir,
generator state) unchanged. -/
theorem unparseable_row_skipped (params : SamplingParameters) (interval : ℚ)
    (s : Pass1State) (k : ℕ) (st : Pass2State) (idx : ℕ) (raw : RawRow)
    (h : raw.amount = none) :
    pass1Step params interval s idx raw = s ∧
      pass2Step params interval k st idx raw = st := by
  constructor
  · unfold pass1Step
    rw [h]
  · unfold pass2Step
    rw [h]

/-- Witness for C9 at a concrete input: a row with an unparseable amount
leaves the initial pass-1 state untouched. -/
theorem unparseable_row_skipped_witness :
    pass1Step exParams 90 Pass1State.init 0 (exRow none) =
      Pass1State.init :=
  (unparseable_row_skipped exParams 90 Pass1State.init 0
      { seen := 0, reservoir := [], rng := PyRandom.new 1 } 0 (exRow none)
      rfl).1

/-- C5: both engines are deterministic — a second run on an identical
population (or byte-identical source) with identical parameters, seed
included, produces the identical sample (membership and ordering) and the
identical statistics.  The embedding is a pure function because the code
derives all randomness from `params.random_seed` and consults no other
entropy source. -/
theorem run_reproducibility (cleaned₁ cleaned₂ : List CleanedTransaction)
    (rows₁ rows₂ : List RawRow) (params₁ params₂ : SamplingParameters)
    (hc : cleaned₁ = cleaned₂) (hr : rows₁ = rows₂) (hp : params₁ = params₂) :
    generateSample cleaned₁ params₁ = generateSample cleaned₂ params₂ ∧
      generateSampleStreaming rows₁ params₁ =
        generateSampleStreaming rows₂ params₂ := by
  subst hc
  subst hr
  subst hp
  exact ⟨rfl, rfl⟩

/-- Witness for C5 at a concrete input: two runs of the batch engine on the
same one-record population agree. -/
theorem run_reproducibility_witness :
    generateSample [exTxn 100 0] exParams =
      generateSample [exTxn 100 0] exParams :=
  (run_reproducibility [exTxn 100 0] [exTxn 100 0] [exRow (some 100)]
      [exRow (some 100)] exParams exParams rfl rfl rfl).1

theorem sampleAux_cons {α : Type} (r : PyRandom) (x : α) (rest : List α)
    (k : ℕ) :
    PyRandom.sampleAux r (x :: rest) (k + 1) =
      (x :: rest).get
          ⟨(r.randint 0 ((x :: rest).length - 1)).1 % (x :: rest).length,
            Nat.mod_lt _ (by simp)⟩ ::
        PyRandom.sampleAux (r.randint 0 ((x :: rest).length - 1)).2
          ((x :: rest).eraseIdx
            ((r.randint 0 ((x :: rest).length - 1)).1 % (x :: rest).length))
          k :=
  rfl

theorem sampleAux_length {α : Type} :
    ∀ (k : ℕ) (r : PyRandom) (xs : List α),
      (PyRandom.sampleAux r xs k).length = min k xs.length := by
  intro k
  induction k with
  | zero => intro r xs; simp [PyRandom.sampleAux]
  | succ k ih =>
      intro r xs
      match xs with
      | [] => simp [PyRandom.sampleAux]
      | x :: rest =>
          rw [sampleAux_cons, List.length_cons, ih]
          have hilt : (r.randint 0 ((x :: rest).length - 1)).1 %
              (x :: rest).length < (x :: rest).length :=
            Nat.mod_lt _ (by simp)
          have hlen := List.length_eraseIdx_add_one hilt
          simp only [List.length_cons] at hlen ⊢
          omega

theorem sampleAux_mem {α : Type} :
    ∀ (k : ℕ) (r : PyRandom) (xs : List α) (t : α),
      t ∈ PyRandom.sampleAux r xs k → t ∈ xs := by
  intro k
  induction k with
  | zero => intro r xs t h; simp [PyRandom.sampleAux] at h
  | succ k ih =>
      intro r xs t h
      match xs with
      | [] => simp [PyRandom.sampleAux] at h
      | x :: rest =>
          rw [sampleAux_cons] at h
          rcases List.mem_cons.1 h with h | h
          · rw [h]; exact List.get_mem _ _ _
          · exact (List.eraseIdx_sublist (x :: rest) _).subset (ih _ _ t h)

theorem selectRandomSample_mem (transactions : List CleanedTransaction)
    (interval : ℚ) (seed : ℕ) (u : CleanedTransaction)
    (h : u ∈ selectRandomSample transactions interval seed) :
    ∃ v ∈ transactions, u = markTransaction v SelectionType.random := by
  by_cases h1 : transactions = []
  · simp [selectRandomSample, h1] at h
  · by_cases h2 : (transactions.map (fun t => t.amount_abs)).sum = 0
    · simp [selectRandomSample, h1, h2] at h
    · by_cases h3 :
          min (pyTruncInt ((transactions.map (fun t => t.amount_abs)).sum /
              interval + 9999 / 10000)) (transactions.length : ℤ) = 0
      · simp [selectRandomSample, h1, h2, h3] at h
      · simp only [selectRandomSample, h1, h2, h3, if_neg, if_false,
          ite_false] at h
        rcases List.mem_map.1 h with ⟨v, hv, rfl⟩
        exact ⟨v, sampleAux_mem _ _ _ _ hv, rfl⟩

theorem selectRandomSample_label (transactions : List CleanedTransaction)
    (interval : ℚ) (seed : ℕ) (u : CleanedTransaction)
    (h : u ∈ selectRandomSample transactions interval seed) :
    u.selection_type = some SelectionType.random := by
  rcases selectRandomSample_mem transactions interval seed u h with ⟨v, _, rfl⟩
  rfl

theorem selectHighValue_label (transactions : List CleanedTransaction)
    (interval : ℚ) (u : CleanedTransaction)
    (h : u ∈ selectHighValue transactions interval) :
    u.selection_type = some SelectionType.highValue := by
  rcases List.mem_map.1 h with ⟨v, _, rfl⟩
  rfl

theorem selectHighValue_mem (transactions : List CleanedTransaction)
    (interval : ℚ) (u : CleanedTransaction)
    (h : u ∈ selectHighValue transactions interval) :
    ∃ v ∈ transactions,
      interval < v.amount_abs ∧
        u = markTransaction v SelectionType.highValue := by
  rcases List.mem_map.1 h with ⟨v, hv, rfl⟩
  rcases List.mem_filter.1 hv with ⟨hmem, hlt⟩
  exact ⟨v, hmem, by simpa using hlt, rfl⟩

theorem filterPopulation_fst (params : SamplingParameters) :
    ∀ ts : List CleanedTransaction,
      (filterPopulation ts params).1 = ts.filter (inclP params) := by
  intro ts
  induction ts with
  | nil => rfl
  | cons t rest ih =>
      unfold filterPopulation
      rcases h : applyBalanceFilters (some t.amount_abs) t.balance_category
          params with ⟨b, reason⟩
      have hincl : inclP params t = b := by
        unfold inclP
        rw [h]
      cases b
      · simp only [List.filter_cons, hincl, Bool.false_eq_true, if_false]
        split <;> simpa using ih
      · simp only [List.filter_cons, hincl, if_true]
        simpa using congrArg (t :: ·) ih

theorem rowTxn_mark (idx : ℕ) (r : RawRow) (signed : ℚ)
    (s : SelectionType) :
    rowTxn idx r signed (some s) = markTransaction (rowTxn idx r signed none)
      s :=
  rfl

/-- Pass 1 of the streaming sampler computes, over any suffix of the source
and from any accumulator, exactly the population size, absolute balance and
high-value stratum that the batch pipeline computes from the cleaner's
materialization of the same rows. -/
theorem pass1Go_spec (params : SamplingParameters) (interval : ℚ) :
    ∀ (rows : List RawRow) (idx : ℕ) (s : Pass1State),
      (pass1Go params interval idx s rows).population_size
          = s.population_size +
            ((processRowsGo idx rows).filter (inclP params)).length
      ∧ (pass1Go params interval idx s rows).total_abs
          = s.total_abs +
            (((processRowsGo idx rows).filter (inclP params)).map
              (fun t => t.amount_abs)).sum
      ∧ (pass1Go params interval idx s rows).high_value
          = s.high_value ++
            ((((processRowsGo idx rows).filter (inclP params)).filter
                (fun t => interval < t.amount_abs)).map
              (fun t => markTransaction t SelectionType.highValue)) := by
  intro rows
  induction rows with
  | nil => intro idx s; simp [pass1Go, processRowsGo]
  | cons r rest ih =>
      intro idx s
      have hgo : pass1Go params interval idx s (r :: rest)
          = pass1Go params interval (idx + 1)
            (pass1Step params interval s idx r) rest := rfl
      cases hr : r.amount with
      | none =>
          have hstep : pass1Step params interval s idx r = s := by
            unfold pass1Step; rw [hr]
          have hpr : processRowsGo idx (r :: rest)
              = processRowsGo (idx + 1) rest := by
            simp only [processRowsGo, hr]
          rw [hgo, hstep, hpr]
          exact ih (idx + 1) s
      | some signed =>
          have hpr : processRowsGo idx (r :: rest)
              = rowTxn idx r signed none :: processRowsGo (idx + 1) rest := by
            simp only [processRowsGo, hr]
          rcases happ : applyBalanceFilters (some |signed|)
              (deriveBalance signed) params with ⟨b, reason⟩
          have hinclt : inclP params (rowTxn idx r signed none) = b := by
            unfold inclP rowTxn
            dsimp only
            rw [happ]
          cases b with
          | false =>
              have hpres : (pass1Step params interval s idx r).population_size
                    = s.population_size
                  ∧ (pass1Step params interval s idx r).total_abs
                    = s.total_abs
                  ∧ (pass1Step params interval s idx r).high_value
                    = s.high_value := by
                unfold pass1Step
                rw [hr]
                simp only [happ]
                split
                · simp_all
                · split <;> exact ⟨rfl, rfl, rfl⟩
              obtain ⟨hp1, hp2, hp3⟩ := hpres
              obtain ⟨ih1, ih2, ih3⟩ :=
                ih (idx + 1) (pass1Step params interval s idx r)
              rw [hpr]
              rw [List.filter_cons_of_neg (by simp [hinclt])]
              exact ⟨by rw [hgo, ih1, hp1], by rw [hgo, ih2, hp2],
                by rw [hgo, ih3, hp3]⟩
          | true =>
              obtain ⟨ih1, ih2, ih3⟩ :=
                ih (idx + 1) (pass1Step params interval s idx r)
              rw [hpr]
              rw [List.filter_cons_of_pos (by simp [hinclt])]
              by_cases hlt : interval < |signed|
              · have hstep : pass1Step params interval s idx r
                    = { s with
                        population_size := s.population_size + 1
                        total_abs := s.total_abs + |signed|
                        high_value := s.high_value ++
                          [rowTxn idx r signed
                            (some SelectionType.highValue)] } := by
                  unfold pass1Step
                  rw [hr]
                  simp only [happ]
                  simp [gt_iff_lt, hlt]
                have habs : (rowTxn idx r signed none).amount_abs
                    = |signed| := rfl
                rw [List.filter_cons_of_pos (by simp [habs, hlt])]
                refine ⟨?_, ?_, ?_⟩
                · rw [hgo, ih1, hstep]
                  simp only [List.length_cons]
                  omega
                · rw [hgo, ih2, hstep]
                  simp only [List.map_cons, List.sum_cons, habs]
                  ring
                · rw [hgo, ih3, hstep]
                  simp only [List.map_cons]
                  rw [← rowTxn_mark]
                  simp [List.append_assoc]
              · have hstep : pass1Step params interval s idx r
                    = { s with
                        population_size := s.population_size + 1
                        total_abs := s.total_abs + |signed| } := by
                  unfold pass1Step
                  rw [hr]
                  simp only [happ]
                  simp [gt_iff_lt, hlt]
                have habs : (rowTxn idx r signed none).amount_abs
                    = |signed| := rfl
                rw [List.filter_cons_of_neg (by simp [habs, hlt])]
                refine ⟨?_, ?_, ?_⟩
                · rw [hgo, ih1, hstep]
                  simp only [List.length_cons]
                  omega
                · rw [hgo, ih2, hstep]
                  simp only [List.map_cons, List.sum_cons, habs]
                  ring
                · rw [hgo, ih3, hstep]

/-- Pass 2 of the streaming sampler fills the reservoir to the minimum of
`k` and the number of qualifying (parsed, filter-included, non-high-value)
rows in the stream. -/
theorem pass2Go_len (params : SamplingParameters) (interval : ℚ) (k : ℕ) :
    ∀ (rows : List RawRow) (idx : ℕ) (st : Pass2State),
      st.reservoir.length ≤ k →
      (pass2Go params interval k idx st rows).reservoir.length
        = min k (st.reservoir.length +
            (((processRowsGo idx rows).filter (inclP params)).filter
              (fun t => t.amount_abs ≤ interval)).length) := by
  intro rows
  induction rows with
  | nil =>
      intro idx st hle
      simp only [pass2Go, processRowsGo, List.filter_nil, List.length_nil,
        Nat.add_zero]
      omega
  | cons r rest ih =>
      intro idx st hle
      have hgo : pass2Go params interval k idx st (r :: rest)
          = pass2Go params interval k (idx + 1)
            (pass2Step params interval k st idx r) rest := rfl
      cases hr : r.amount with
      | none =>
          have hstep : pass2Step params interval k st idx r = st := by
            unfold pass2Step; rw [hr]
          have hpr : processRowsGo idx (r :: rest)
              = processRowsGo (idx + 1) rest := by
            simp only [processRowsGo, hr]
          rw [hgo, hstep, hpr]
          exact ih (idx + 1) st hle
      | some signed =>
          have hpr : processRowsGo idx (r :: rest)
              = rowTxn idx r signed none :: processRowsGo (idx + 1) rest := by
            simp only [processRowsGo, hr]
          rcases happ : applyBalanceFilters (some |signed|)
              (deriveBalance signed) params with ⟨b, reason⟩
          have hinclt : inclP params (rowTxn idx r signed none) = b := by
            unfold inclP rowTxn
            dsimp only
            rw [happ]
          have habs : (rowTxn idx r signed none).amount_abs = |signed| := rfl
          cases b with
          | false =>
              have hstep : pass2Step params interval k st idx r = st := by
                unfold pass2Step
                rw [hr]
                simp only [happ]
                simp
              rw [hgo, hstep, hpr,
                List.filter_cons_of_neg (by simp [hinclt])]
              exact ih (idx + 1) st hle
          | true =>
              by_cases hlt : interval < |signed|
              · have hstep : pass2Step params interval k st idx r = st := by
                  unfold pass2Step
                  rw [hr]
                  simp only [happ]
                  simp [gt_iff_lt, hlt]
                rw [hgo, hstep, hpr,
                  List.filter_cons_of_pos (by simp [hinclt]),
                  List.filter_cons_of_neg (by simp [habs, not_le.2 hlt])]
                exact ih (idx + 1) st hle
              · have hstep_len :
                    (pass2Step params interval k st idx r).reservoir.length
                      = if st.reservoir.length < k then
                          st.reservoir.length + 1
                        else st.reservoir.length := by
                  unfold pass2Step
                  rw [hr]
                  simp only [happ]
                  simp [gt_iff_lt, hlt, List.length_set]
                  split
                  · simp
                  · split <;> simp [List.length_set]
                have hle' :
                    (pass2Step params interval k st idx r).reservoir.length
                      ≤ k := by
                  rw [hstep_len]
                  split <;> omega
                have hres := ih (idx + 1)
                  (pass2Step params interval k st idx r) hle'
                rw [hgo, hres, hpr,
                  List.filter_cons_of_pos (by simp [hinclt]),
                  List.filter_cons_of_pos (by simp [habs, not_lt.1 hlt]),
                  hstep_len]
                rcases Nat.lt_or_ge st.reservoir.length k with hk | hk
                · rw [if_pos hk]
                  simp only [List.length_cons]
                  omega
                · rw [if_neg (by omega)]
                  simp only [List.length_cons]
                  omega

theorem sum_filter_abs_split (l : List CleanedTransaction) (interval : ℚ) :
    (((l.filter (fun t => interval < t.amount_abs)).map
        (fun t => t.amount_abs)).sum)
      + (((l.filter (fun t => t.amount_abs ≤ interval)).map
        (fun t => t.amount_abs)).sum)
      = (l.map (fun t => t.amount_abs)).sum := by
  induction l with
  | nil => simp
  | cons t rest ih =>
      by_cases h : interval < t.amount_abs
      · rw [List.filter_cons_of_pos (by simpa using h),
          List.filter_cons_of_neg (by simpa using not_le.2 h)]
        simp only [List.map_cons, List.sum_cons]
        rw [← ih]
        ring
      · rw [List.filter_cons_of_neg (by simpa using h),
          List.filter_cons_of_pos (by simpa using not_lt.1 h)]
        simp only [List.map_cons, List.sum_cons]
        rw [← ih]
        ring

theorem mem_unique_of_pairwise_idx :
    ∀ (l : List CleanedTransaction),
      l.Pairwise (fun a b => a.source_row_index ≠ b.source_row_index) →
      ∀ t u : CleanedTransaction, t ∈ l → u ∈ l →
        t.source_row_index = u.source_row_index → t = u := by
  intro l
  induction l with
  | nil => intro _ t u ht; simp at ht
  | cons x rest ih =>
      intro h t u ht hu hidx
      rcases List.pairwise_cons.1 h with ⟨hx, hrest⟩
      rcases List.mem_cons.1 ht with rfl | ht'
      · rcases List.mem_cons.1 hu with rfl | hu'
        · rfl
        · exact absurd hidx (hx u hu')
      · rcases List.mem_cons.1 hu with rfl | hu'
        · exact absurd hidx.symm (hx t ht')
        · exact ih hrest t u ht' hu' hidx

/-- On a population with pairwise distinct source row indices, excluding the
high-value selections by row index is the same as keeping exactly the
records whose absolute amount does not exceed the interval. -/
theorem excludeTransactions_selectHighValue
    (filtered : List CleanedTransaction) (interval : ℚ)
    (hdist : filtered.Pairwise
      (fun a b => a.source_row_index ≠ b.source_row_index)) :
    excludeTransactions filtered (selectHighValue filtered interval)
      = filtered.filter (fun t => t.amount_abs ≤ interval) := by
  unfold excludeTransactions
  refine List.filter_congr ?_
  intro t ht
  have hmemiff : (t.source_row_index ∈
      (selectHighValue filtered interval).map
        (fun e => e.source_row_index)) ↔ interval < t.amount_abs := by
    constructor
    · intro hmem
      rcases List.mem_map.1 hmem with ⟨u, hu, hidx⟩
      rcases selectHighValue_mem filtered interval u hu with
        ⟨v, hv, hvlt, rfl⟩
      have hveq : v = t :=
        mem_unique_of_pairwise_idx filtered hdist v t hv ht
          (by simpa using hidx)
      rw [← hveq]
      exact hvlt
    · intro hlt
      exact List.mem_map.2
        ⟨markTransaction t SelectionType.highValue,
          List.mem_map.2
            ⟨t, List.mem_filter.2 ⟨ht, by simpa using hlt⟩, rfl⟩, rfl⟩
  simp only [decide_eq_decide]
  rw [hmemiff]
  exact not_lt

theorem processRowsGo_idx_ge :
    ∀ (rows : List RawRow) (idx : ℕ) (t : CleanedTransaction),
      t ∈ processRowsGo idx rows → idx ≤ t.source_row_index := by
  intro rows
  induction rows with
  | nil => intro idx t ht; simp [processRowsGo] at ht
  | cons r rest ih =>
      intro idx t ht
      cases hr : r.amount with
      | none =>
          rw [show processRowsGo idx (r :: rest)
              = processRowsGo (idx + 1) rest by
            simp only [processRowsGo, hr]] at ht
          exact le_trans (Nat.le_succ idx) (ih (idx + 1) t ht)
      | some signed =>
          rw [show processRowsGo idx (r :: rest)
              = rowTxn idx r signed none :: processRowsGo (idx + 1) rest by
            simp only [processRowsGo, hr]] at ht
          rcases List.mem_cons.1 ht with rfl | ht'
          · exact le_refl _
          · exact le_trans (Nat.le_succ idx) (ih (idx + 1) t ht')

theorem processRowsGo_pairwise :
    ∀ (rows : List RawRow) (idx : ℕ),
      (processRowsGo idx rows).Pairwise
        (fun a b => a.source_row_index ≠ b.source_row_index) := by
  intro rows
  induction rows with
  | nil => intro idx; simp [processRowsGo]
  | cons r rest ih =>
      intro idx
      cases hr : r.amount with
      | none =>
          rw [show processRowsGo idx (r :: rest)
              = processRowsGo (idx + 1) rest by
            simp only [processRowsGo, hr]]
          exact ih (idx + 1)
      | some signed =>
          rw [show processRowsGo idx (r :: rest)
              = rowTxn idx r signed none :: processRowsGo (idx + 1) rest by
            simp only [processRowsGo, hr]]
          refine List.pairwise_cons.2 ⟨?_, ih (idx + 1)⟩
          intro u hu
          have hge := processRowsGo_idx_ge rest (idx + 1) u hu
          have hidx : (rowTxn idx r signed none).source_row_index = idx := rfl
          rw [hidx]
          omega

theorem processRowsGo_abs_nonneg :
    ∀ (rows : List RawRow) (idx : ℕ) (t : CleanedTransaction),
      t ∈ processRowsGo idx rows → 0 ≤ t.amount_abs := by
  intro rows
  induction rows with
  | nil => intro idx t ht; simp [processRowsGo] at ht
  | cons r rest ih =>
      intro idx t ht
      cases hr : r.amount with
      | none =>
          rw [show processRowsGo idx (r :: rest)
              = processRowsGo (idx + 1) rest by
            simp only [processRowsGo, hr]] at ht
          exact ih (idx + 1) t ht
      | some signed =>
          rw [show processRowsGo idx (r :: rest)
              = rowTxn idx r signed none :: processRowsGo (idx + 1) rest by
            simp only [processRowsGo, hr]] at ht
          rcases List.mem_cons.1 ht with rfl | ht'
          · exact abs_nonneg signed
          · exact ih (idx + 1) t ht'

theorem pyTruncInt_of_nonneg (q : ℚ) (h : 0 ≤ q) : pyTruncInt q = ⌊q⌋ := by
  unfold pyTruncInt
  rw [if_pos h]

theorem filter_label_all (l : List CleanedTransaction) (s : SelectionType)
    (h : ∀ t ∈ l, t.selection_type = some s) :
    l.filter (fun t => t.selection_type = some s) = l :=
  List.filter_eq_self.2 (fun t ht => by simp [h t ht])

theorem filter_label_none (l : List CleanedTransaction) (s s' : SelectionType)
    (hne : s ≠ s') (h : ∀ t ∈ l, t.selection_type = some s) :
    l.filter (fun t => t.selection_type = some s') = [] :=
  List.filter_eq_nil_iff.2 (fun t ht => by simp [h t ht, hne])

theorem amounts_sum_nonneg (ts : List CleanedTransaction)
    (h : ∀ t ∈ ts, 0 ≤ t.amount_abs) :
    0 ≤ (ts.map (fun t => t.amount_abs)).sum := by
  induction ts with
  | nil => simp
  | cons t rest ih =>
      simp only [List.map_cons, List.sum_cons]
      have h1 := h t (List.mem_cons_self t rest)
      have h2 := ih (fun u hu => h u (List.mem_cons_of_mem t hu))
      linarith

/-- The length of the batch random stratum, in closed form: the `0.9999`
rounding of `remaining_balance / interval`, truncated, capped at the
candidate count. -/
theorem selectRandomSample_length (ts : List CleanedTransaction)
    (interval : ℚ) (seed : ℕ) (hpos : ∀ t ∈ ts, 0 ≤ t.amount_abs)
    (hi : 0 < interval) :
    (selectRandomSample ts interval seed).length
      = min (⌊(ts.map (fun t => t.amount_abs)).sum / interval
          + 9999 / 10000⌋.toNat) ts.length := by
  by_cases h1 : ts = []
  · simp [selectRandomSample, h1]
  · by_cases h2 : (ts.map (fun t => t.amount_abs)).sum = 0
    · have harg : ((ts.map (fun t => t.amount_abs)).sum / interval
          + 9999 / 10000 : ℚ) = 9999 / 10000 := by
        rw [h2]; ring
      have hfl : ⌊(9999 / 10000 : ℚ)⌋ = 0 := by
        rw [Int.floor_eq_zero_iff]
        constructor <;> norm_num
      simp [selectRandomSample, h1, h2, harg, hfl]
    · have hsum : 0 < (ts.map (fun t => t.amount_abs)).sum :=
        lt_of_le_of_ne (amounts_sum_nonneg ts hpos) (Ne.symm h2)
      have harg : 0 < (ts.map (fun t => t.amount_abs)).sum / interval
          + 9999 / 10000 := by positivity
      have hfl0 : 0 ≤ ⌊(ts.map (fun t => t.amount_abs)).sum / interval
          + 9999 / 10000⌋ :=
        Int.floor_nonneg.2 harg.le
      have hn : 1 ≤ ts.length := by
        cases ts with
        | nil => exact absurd rfl h1
        | cons a l => simp
      have htr : pyTruncInt ((ts.map (fun t => t.amount_abs)).sum / interval
          + 9999 / 10000) = ⌊(ts.map (fun t => t.amount_abs)).sum / interval
          + 9999 / 10000⌋ := pyTruncInt_of_nonneg _ harg.le
      by_cases h3 : min (pyTruncInt ((ts.map (fun t => t.amount_abs)).sum /
          interval + 9999 / 10000)) (ts.length : ℤ) = 0
      · have hz : ⌊(ts.map (fun t => t.amount_abs)).sum / interval
            + 9999 / 10000⌋ = 0 := by
          rw [htr] at h3
          omega
        simp [selectRandomSample, h1, h2, h3, hz]
      · simp only [selectRandomSample, h1, h2, h3, if_neg, ite_false,
          if_false]
        rw [List.length_map, PyRandom.sample, sampleAux_length]
        rw [htr] at h3 ⊢
        omega

/-- The streaming pass-1 target, in closed form, for a nonnegative aggregate
and positive interval. -/
theorem streamRandomSize_eq (r i : ℚ) (hr : 0 ≤ r) (hi : 0 < i) :
    streamRandomSize r i = ⌊r / i + 9999 / 10000⌋ ∧
      0 ≤ streamRandomSize r i := by
  have harg : 0 ≤ r / i + 9999 / 10000 := by positivity
  have heq : streamRandomSize r i = ⌊r / i + 9999 / 10000⌋ := by
    unfold streamRandomSize
    rw [if_pos hi]
    exact pyTruncInt_of_nonneg _ harg
  exact ⟨heq, heq ▸ Int.floor_nonneg.2 harg⟩

/-- The remaining aggregate computed at the end of streaming pass 1
(`remaining_abs = total_abs - sum(t.amount_abs for t in high_value)`). -/
def streamRemaining (rows : List RawRow) (params : SamplingParameters) : ℚ :=
  (pass1 rows params params.samplingInterval).total_abs -
    ((pass1 rows params params.samplingInterval).high_value.map
      (fun t => t.amount_abs)).sum

/-- The reservoir size `k = max(0, random_size)` of streaming pass 2. -/
def streamK (rows : List RawRow) (params : SamplingParameters) : ℕ :=
  (max 0 (streamRandomSize (streamRemaining rows params)
    params.samplingInterval)).toNat

/-- The reservoir produced by streaming pass 2 (empty when `k = 0`, in which
case the pass is skipped). -/
def streamReservoir (rows : List RawRow) (params : SamplingParameters) :
    List CleanedTransaction :=
  if streamK rows params > 0 then
    (pass2Go params params.samplingInterval (streamK rows params) 0
      { seen := 0, reservoir := [], rng := PyRandom.new params.random_seed }
      rows).reservoir
  else []

theorem generateSampleStreaming_ok_parts (rows : List RawRow)
    (params : SamplingParameters) (sample : List CleanedTransaction)
    (stats : SampleStatistics)
    (hok : generateSampleStreaming rows params = Except.ok (sample, stats)) :
    (pass1 rows params params.samplingInterval).population_size ≠ 0
    ∧ sample = (pass1 rows params params.samplingInterval).high_value ++
        streamReservoir rows params
    ∧ stats.random_sample_count = (streamReservoir rows params).length
    ∧ stats.population_balance_abs =
        (pass1 rows params params.samplingInterval).total_abs
    ∧ stats.coverage_abs = (sample.map (fun t => t.amount_abs)).sum
    ∧ stats.coverage_percent =
        (if (pass1 rows params params.samplingInterval).total_abs > 0 then
          stats.coverage_abs /
            (pass1 rows params params.samplingInterval).total_abs * 100
        else 0)
    ∧ stats.population_size =
        (pass1 rows params params.samplingInterval).population_size := by
  by_cases hemp :
      (pass1 rows params params.samplingInterval).population_size = 0
  · simp [generateSampleStreaming, hemp] at hok
  · simp only [generateSampleStreaming, hemp, ite_false, if_false,
      Except.ok.injEq, Prod.mk.injEq] at hok
    obtain ⟨hsample, hstats⟩ := hok
    subst hsample
    subst hstats
    refine ⟨hemp, ?_, ?_, ?_, ?_, ?_, ?_⟩ <;> rfl

theorem generateSample_ok_parts (cleaned : List CleanedTransaction)
    (params : SamplingParameters) (sample : List CleanedTransaction)
    (stats : SampleStatistics)
    (hok : generateSample cleaned params = Except.ok (sample, stats)) :
    (filterPopulation cleaned params).1 ≠ []
    ∧ sample =
        selectHighValue (filterPopulation cleaned params).1
            params.samplingInterval ++
          selectRandomSample
            (excludeTransactions (filterPopulation cleaned params).1
              (selectHighValue (filterPopulation cleaned params).1
                params.samplingInterval))
            params.samplingInterval params.random_seed
    ∧ stats = buildStatistics (filterPopulation cleaned params).1 sample
        params.samplingInterval (filterPopulation cleaned params).2.1
        (filterPopulation cleaned params).2.2 := by
  by_cases hemp : (filterPopulation cleaned params).1 = []
  · simp [generateSample, hemp] at hok
  · simp only [generateSample, hemp, ite_false, if_false, combineSamples,
      Except.ok.injEq, Prod.mk.injEq] at hok
    obtain ⟨hsample, hstats⟩ := hok
    exact ⟨hemp, hsample.symm, by rw [← hstats, ← hsample]⟩

theorem pass1_population_size (rows : List RawRow)
    (params : SamplingParameters) :
    (pass1 rows params params.samplingInterval).population_size
      = ((processRows rows).filter (inclP params)).length := by
  have h := (pass1Go_spec params params.samplingInterval rows 0
    Pass1State.init).1
  simpa [pass1, Pass1State.init, processRows] using h

theorem pass1_total_abs (rows : List RawRow)
    (params : SamplingParameters) :
    (pass1 rows params params.samplingInterval).total_abs
      = (((processRows rows).filter (inclP params)).map
          (fun t => t.amount_abs)).sum := by
  have h := (pass1Go_spec params params.samplingInterval rows 0
    Pass1State.init).2.1
  simpa [pass1, Pass1State.init, processRows] using h

theorem pass1_high_value (rows : List RawRow)
    (params : SamplingParameters) :
    (pass1 rows params params.samplingInterval).high_value
      = (((processRows rows).filter (inclP params)).filter
          (fun t => params.samplingInterval < t.amount_abs)).map
        (fun t => markTransaction t SelectionType.highValue) := by
  have h := (pass1Go_spec params params.samplingInterval rows 0
    Pass1State.init).2.2
  simpa [pass1, Pass1State.init, processRows] using h

theorem pass1_total_abs_nonneg (rows : List RawRow)
    (params : SamplingParameters) :
    0 ≤ (pass1 rows params params.samplingInterval).total_abs := by
  rw [pass1_total_abs]
  refine amounts_sum_nonneg _ ?_
  intro t ht
  exact processRowsGo_abs_nonneg rows 0 t (List.mem_filter.1 ht).1

/-- C4: in both modes an empty filtered population is a hard error and a
non-empty one is not: the engine returns successfully exactly when at least
one record survives the zero-amount and balance-type filters. -/
theorem empty_population_error (cleaned : List CleanedTransaction)
    (rows : List RawRow) (params : SamplingParameters) :
    ((∃ out, generateSample cleaned params = Except.ok out) ↔
      (filterPopulation cleaned params).1 ≠ [])
    ∧ ((∃ out, generateSampleStreaming rows params = Except.ok out) ↔
      (filterPopulation (processRows rows) params).1 ≠ []) := by
  constructor
  · constructor
    · rintro ⟨out, hok⟩ hemp
      simp [generateSample, hemp] at hok
    · intro hne
      simp only [generateSample, hne, ite_false, if_false]
      exact ⟨_, rfl⟩
  · have hfp : (filterPopulation (processRows rows) params).1
        = (processRows rows).filter (inclP params) :=
      filterPopulation_fst params _
    constructor
    · rintro ⟨out, hok⟩ hemp
      have hzero :
          (pass1 rows params params.samplingInterval).population_size
            = 0 := by
        rw [pass1_population_size, ← hfp, hemp]
        rfl
      simp [generateSampleStreaming, hzero] at hok
    · intro hne
      have hpne :
          (pass1 rows params params.samplingInterval).population_size
            ≠ 0 := by
        rw [pass1_population_size, ← hfp]
        intro hzero
        exact hne (List.length_eq_zero.1 hzero)
      simp only [generateSampleStreaming, hpne, ite_false, if_false]
      exact ⟨_, rfl⟩

/-- Witness for C4 at a concrete input: a one-credit-record population is
non-empty after filtering, so the batch engine succeeds on it. -/
theorem empty_population_error_witness :
    ∃ out, generateSample [exTxn 100 0] exParams = Except.ok out :=
  (empty_population_error [exTxn 100 0] [exRow (some 100)] exParams).1.2
    (by decide)

/-- C8: in both modes, `coverage_abs` is the sum of the sample's absolute
amounts and `coverage_percent = 100 × coverage_abs /
population_balance_abs`, which is 0 when the population balance is 0
(division by zero being 0 in ℚ matches the code's explicit 0 branch). -/
theorem coverage_formula :
    (∀ (population sample : List CleanedTransaction) (interval : ℚ)
        (zf bf : ℕ),
        0 ≤ (population.map (fun t => t.amount_abs)).sum →
        (buildStatistics population sample interval zf bf).coverage_abs
            = (sample.map (fun t => t.amount_abs)).sum
          ∧ (buildStatistics population sample interval zf
              bf).coverage_percent
            = 100 * (buildStatistics population sample interval zf
                bf).coverage_abs
              / (buildStatistics population sample interval zf
                bf).population_balance_abs)
    ∧ (∀ (rows : List RawRow) (params : SamplingParameters)
        (sample : List CleanedTransaction) (stats : SampleStatistics),
        generateSampleStreaming rows params = Except.ok (sample, stats) →
        stats.coverage_abs = (sample.map (fun t => t.amount_abs)).sum
          ∧ stats.coverage_percent
            = 100 * stats.coverage_abs / stats.population_balance_abs) := by
  constructor
  · intro population sample interval zf bf hpop
    have hca : (buildStatistics population sample interval zf
        bf).coverage_abs = (sample.map (fun t => t.amount_abs)).sum := rfl
    have hpb : (buildStatistics population sample interval zf
        bf).population_balance_abs
        = (population.map (fun t => t.amount_abs)).sum := rfl
    have hcp : (buildStatistics population sample interval zf
        bf).coverage_percent
        = (if (population.map (fun t => t.amount_abs)).sum > 0 then
            (sample.map (fun t => t.amount_abs)).sum /
              (population.map (fun t => t.amount_abs)).sum * 100
          else 0) := rfl
    refine ⟨hca, ?_⟩
    rw [hca, hpb, hcp]
    by_cases hp : (population.map (fun t => t.amount_abs)).sum > 0
    · rw [if_pos hp]
      field_simp
      ring
    · have h0 : (population.map (fun t => t.amount_abs)).sum = 0 :=
        le_antisymm (not_lt.1 hp) hpop
      rw [if_neg hp, h0, div_zero]
  · intro rows params sample stats hok
    obtain ⟨-, -, -, hpb, hca, hcp, -⟩ :=
      generateSampleStreaming_ok_parts rows params sample stats hok
    refine ⟨hca, ?_⟩
    rw [hcp, hpb]
    by_cases hp : (pass1 rows params params.samplingInterval).total_abs > 0
    · rw [if_pos hp]
      field_simp
      ring
    · have h0 : (pass1 rows params params.samplingInterval).total_abs = 0 :=
        le_antisymm (not_lt.1 hp) (pass1_total_abs_nonneg rows params)
      rw [if_neg hp, h0, div_zero]

/-- Witness for C8 at a concrete input: statistics over a one-record
population fully covered by the sample. -/
theorem coverage_formula_witness :
    (buildStatistics [exTxn 100 0]
        [markTransaction (exTxn 100 0) SelectionType.highValue] 90 0
        0).coverage_abs
      = (([markTransaction (exTxn 100 0) SelectionType.highValue].map
          (fun t => t.amount_abs)).sum) :=
  (coverage_formula.1 [exTxn 100 0]
    [markTransaction (exTxn 100 0) SelectionType.highValue] 90 0 0
    (by norm_num [exTxn])).1

/-- C3: a record is high-value iff its absolute amount strictly exceeds the
interval, in batch mode and in both passes of streaming mode — batch
membership in both directions; pass 1 collects exactly the filter-included
strict exceeders into `high_value` (an exact-interval row never enters, and
an included row at or below the interval is counted into the population but
not the stratum); pass 2 skips a strict exceeder outright and retains an
included row at or below the interval as a candidate (its qualifying count
advances). -/
theorem high_value_strict_threshold :
    (∀ (ts : List CleanedTransaction) (interval : ℚ)
        (u : CleanedTransaction), u ∈ selectHighValue ts interval →
          interval < u.amount_abs)
    ∧ (∀ (ts : List CleanedTransaction) (interval : ℚ)
        (t : CleanedTransaction), t ∈ ts → interval < t.amount_abs →
          markTransaction t SelectionType.highValue ∈
            selectHighValue ts interval)
    ∧ (∀ (params : SamplingParameters) (interval : ℚ) (s : Pass1State)
        (idx : ℕ) (raw : RawRow) (u : CleanedTransaction),
        u ∈ (pass1Step params interval s idx raw).high_value →
          u ∈ s.high_value ∨ interval < u.amount_abs)
    ∧ (∀ (params : SamplingParameters) (interval : ℚ) (s : Pass1State)
        (idx : ℕ) (raw : RawRow) (signed : ℚ), raw.amount = some signed →
        |signed| = interval →
          (pass1Step params interval s idx raw).high_value = s.high_value)
    ∧ (∀ (params : SamplingParameters) (interval : ℚ) (k : ℕ)
        (st : Pass2State) (idx : ℕ) (raw : RawRow) (signed : ℚ),
        raw.amount = some signed → interval < |signed| →
          pass2Step params interval k st idx raw = st)
    ∧ (∀ (params : SamplingParameters) (interval : ℚ) (s : Pass1State)
        (idx : ℕ) (raw : RawRow) (signed : ℚ), raw.amount = some signed →
        (applyBalanceFilters (some |signed|) (deriveBalance signed)
          params).1 = true →
        interval < |signed| →
          (pass1Step params interval s idx raw).high_value
            = s.high_value ++
              [rowTxn idx raw signed (some SelectionType.highValue)])
    ∧ (∀ (params : SamplingParameters) (interval : ℚ) (s : Pass1State)
        (idx : ℕ) (raw : RawRow) (signed : ℚ), raw.amount = some signed →
        (applyBalanceFilters (some |signed|) (deriveBalance signed)
          params).1 = true →
        |signed| ≤ interval →
          (pass1Step params interval s idx raw).high_value = s.high_value
          ∧ (pass1Step params interval s idx raw).population_size
            = s.population_size + 1)
    ∧ (∀ (params : SamplingParameters) (interval : ℚ) (k : ℕ)
        (st : Pass2State) (idx : ℕ) (raw : RawRow) (signed : ℚ),
        raw.amount = some signed →
        (applyBalanceFilters (some |signed|) (deriveBalance signed)
          params).1 = true →
        |signed| ≤ interval →
          (pass2Step params interval k st idx raw).seen = st.seen + 1) := by
  refine ⟨?_, ?_, ?_, ?_, ?_, ?_, ?_, ?_⟩
  · intro ts interval u hu
    rcases selectHighValue_mem ts interval u hu with ⟨v, _, hvlt, rfl⟩
    simpa using hvlt
  · intro ts interval t ht hlt
    exact List.mem_map.2 ⟨t, List.mem_filter.2 ⟨ht, by simpa using hlt⟩, rfl⟩
  · intro params interval s idx raw u hu
    cases hr : raw.amount with
    | none =>
        rw [show pass1Step params interval s idx raw = s by
          unfold pass1Step; rw [hr]] at hu
        exact Or.inl hu
    | some signed =>
        rcases happ : applyBalanceFilters (some |signed|)
            (deriveBalance signed) params with ⟨b, reason⟩
        unfold pass1Step at hu
        rw [hr] at hu
        simp only [happ] at hu
        cases b with
        | false =>
            by_cases hreason : reason = some ExcludeReason.zero <;>
              simp [hreason] at hu <;> exact Or.inl hu
        | true =>
            by_cases hlt : interval < |signed|
            · simp [gt_iff_lt, hlt] at hu
              rcases hu with hu | hu
              · exact Or.inl hu
              · right
                rw [hu]
                exact hlt
            · simp [gt_iff_lt, hlt] at hu
              exact Or.inl hu
  · intro params interval s idx raw signed hr heq
    have hnlt : ¬ (interval < |signed|) := by
      rw [heq]
      exact lt_irrefl interval
    unfold pass1Step
    rw [hr]
    rcases happ : applyBalanceFilters (some |signed|)
        (deriveBalance signed) params with ⟨b, reason⟩
    simp only [happ]
    cases b with
    | false =>
        split
        · simp_all
        · split <;> rfl
    | true => simp [gt_iff_lt, hnlt]
  · intro params interval k st idx raw signed hr hlt
    unfold pass2Step
    rw [hr]
    rcases happ : applyBalanceFilters (some |signed|)
        (deriveBalance signed) params with ⟨b, reason⟩
    simp only [happ]
    cases b with
    | false => simp
    | true => simp [gt_iff_lt, hlt]
  · intro params interval s idx raw signed hr hincl hlt
    rcases happ : applyBalanceFilters (some |signed|)
        (deriveBalance signed) params with ⟨b, reason⟩
    rw [happ] at hincl
    cases b with
    | false => simp at hincl
    | true =>
        unfold pass1Step
        rw [hr]
        simp only [happ]
        simp [gt_iff_lt, hlt]
  · intro params interval s idx raw signed hr hincl hle
    have hnlt : ¬ (interval < |signed|) := not_lt.2 hle
    rcases happ : applyBalanceFilters (some |signed|)
        (deriveBalance signed) params with ⟨b, reason⟩
    rw [happ] at hincl
    cases b with
    | false => simp at hincl
    | true =>
        unfold pass1Step
        rw [hr]
        simp only [happ]
        simp [gt_iff_lt, hnlt]
  · intro params interval k st idx raw signed hr hincl hle
    have hnlt : ¬ (interval < |signed|) := not_lt.2 hle
    rcases happ : applyBalanceFilters (some |signed|)
        (deriveBalance signed) params with ⟨b, reason⟩
    rw [happ] at hincl
    cases b with
    | false => simp at hincl
    | true =>
        unfold pass2Step
        rw [hr]
        simp only [happ]
        simp [gt_iff_lt, hnlt]
        split
        · rfl
        · split <;> rfl

/-- Witness for C3 at a concrete input: a record of absolute amount 100 is
selected as high value against interval 90. -/
theorem high_value_strict_threshold_witness :
    markTransaction (exTxn 100 0) SelectionType.highValue ∈
      selectHighValue [exTxn 100 0] 90 :=
  high_value_strict_threshold.2.1 [exTxn 100 0] 90 (exTxn 100 0)
    (List.mem_singleton.2 rfl) (by norm_num [exTxn])

/-- C6: for a successful batch run on a population with distinct source row
indices, the two stratum counts add up to the sample size, every sampled
record carries exactly one of the two selection labels, and the high-value
and random strata are disjoint by source row index. -/
theorem sample_label_partition (cleaned : List CleanedTransaction)
    (params : SamplingParameters)
    (hdist : cleaned.Pairwise
      (fun a b => a.source_row_index ≠ b.source_row_index))
    (sample : List CleanedTransaction) (stats : SampleStatistics)
    (hok : generateSample cleaned params = Except.ok (sample, stats)) :
    stats.high_value_count + stats.random_sample_count = sample.length
    ∧ (∀ t ∈ sample,
        t.selection_type = some SelectionType.highValue ∨
          t.selection_type = some SelectionType.random)
    ∧ (∀ t ∈ sample, ∀ u ∈ sample,
        t.selection_type = some SelectionType.highValue →
        u.selection_type = some SelectionType.random →
        t.source_row_index ≠ u.source_row_index) := by
  obtain ⟨hne, hsample, hstats⟩ :=
    generateSample_ok_parts cleaned params sample stats hok
  set filtered := (filterPopulation cleaned params).1 with hfdef
  set interval := params.samplingInterval with hidef
  set hv := selectHighValue filtered interval with hhv
  set rnd := selectRandomSample (excludeTransactions filtered hv) interval
    params.random_seed with hrnd
  have hhv_label : ∀ t ∈ hv,
      t.selection_type = some SelectionType.highValue :=
    fun t ht => selectHighValue_label filtered interval t ht
  have hrnd_label : ∀ t ∈ rnd,
      t.selection_type = some SelectionType.random :=
    fun t ht =>
      selectRandomSample_label (excludeTransactions filtered hv) interval
        params.random_seed t ht
  have hhvc : stats.high_value_count = hv.length := by
    rw [hstats, hsample]
    show ((hv ++ rnd).filter
        (fun t => t.selection_type = some SelectionType.highValue)).length
      = hv.length
    rw [List.filter_append, filter_label_all hv SelectionType.highValue
      hhv_label, filter_label_none rnd SelectionType.random
      SelectionType.highValue (by simp) hrnd_label]
    simp
  have hrndc : stats.random_sample_count = rnd.length := by
    rw [hstats, hsample]
    show ((hv ++ rnd).filter
        (fun t => t.selection_type = some SelectionType.random)).length
      = rnd.length
    rw [List.filter_append, filter_label_all rnd SelectionType.random
      hrnd_label, filter_label_none hv SelectionType.highValue
      SelectionType.random (by simp) hhv_label]
    simp
  refine ⟨?_, ?_, ?_⟩
  · rw [hhvc, hrndc, hsample]
    simp
  · intro t ht
    rw [hsample] at ht
    rcases List.mem_append.1 ht with ht | ht
    · exact Or.inl (hhv_label t ht)
    · exact Or.inr (hrnd_label t ht)
  · intro t ht u hu hthv hurnd
    rw [hsample] at ht hu
    have htmem : t ∈ hv := by
      rcases List.mem_append.1 ht with h | h
      · exact h
      · rw [hrnd_label t h] at hthv
        simp at hthv
    have humem : u ∈ rnd := by
      rcases List.mem_append.1 hu with h | h
      · rw [hhv_label u h] at hurnd
        simp at hurnd
      · exact h
    rcases selectRandomSample_mem _ _ _ u humem with ⟨v, hvmem, rfl⟩
    have hvnot : ¬ v.source_row_index ∈ hv.map
        (fun e => e.source_row_index) := by
      have := List.mem_filter.1 hvmem
      simpa using this.2
    have htidx : t.source_row_index ∈ hv.map
        (fun e => e.source_row_index) :=
      List.mem_map.2 ⟨t, htmem, rfl⟩
    intro heq
    rw [markTransaction_source_row_index] at heq
    rw [heq] at htidx
    exact hvnot htidx

/-- Witness for C6 at a concrete input: on a two-record population (one
high value, one candidate) the engine succeeds and its stratum counts add to
the sample size. -/
theorem sample_label_partition_witness :
    (match generateSample [exTxn 100 0, exTxn 50 1] exParams with
      | Except.ok out =>
          out.2.high_value_count + out.2.random_sample_count = out.1.length
      | Except.error _ => False) := by
  rcases hok : generateSample [exTxn 100 0, exTxn 50 1] exParams with
    e | ⟨sample, stats⟩
  · have hne : (filterPopulation [exTxn 100 0, exTxn 50 1] exParams).1
        ≠ [] := by decide
    simp only [generateSample, hne, ite_false, if_false] at hok
    cases hok
  · exact (sample_label_partition [exTxn 100 0, exTxn 50 1] exParams
      (by decide) sample stats hok).1

theorem map_amount_abs_mark (l : List CleanedTransaction)
    (s : SelectionType) :
    ((l.map (fun t => markTransaction t s)).map (fun t => t.amount_abs))
      = l.map (fun t => t.amount_abs) := by
  rw [List.map_map]
  rfl

/-- The streaming pass-1 aggregate `remaining_abs` equals the absolute
balance of the batch candidate stratum over an identically materialized
population. -/
theorem streamRemaining_eq_candidates (rows : List RawRow)
    (params : SamplingParameters) :
    streamRemaining rows params
      = ((((processRows rows).filter (inclP params)).filter
          (fun t => t.amount_abs ≤ params.samplingInterval)).map
            (fun t => t.amount_abs)).sum := by
  unfold streamRemaining
  rw [pass1_total_abs, pass1_high_value, map_amount_abs_mark]
  have hsplit := sum_filter_abs_split
    ((processRows rows).filter (inclP params)) params.samplingInterval
  linarith

/-- C2: over a population materialized identically in both modes (the
cleaner's view of the same parsed rows), with the same parameters and seed,
the streaming engine's random stratum has exactly the size of the batch
engine's random stratum — and the two engines fail in exactly the same
(empty-population) cases. -/
theorem streaming_batch_random_size_parity (rows : List RawRow)
    (params : SamplingParameters) (hi : 0 < params.samplingInterval) :
    Except.map (fun out => out.2.random_sample_count)
        (generateSampleStreaming rows params)
      = Except.map (fun out => out.2.random_sample_count)
        (generateSample (processRows rows) params) := by
  have hfp : (filterPopulation (processRows rows) params).1
      = (processRows rows).filter (inclP params) :=
    filterPopulation_fst params _
  by_cases hFe : (processRows rows).filter (inclP params) = []
  · have hb : (filterPopulation (processRows rows) params).1 = [] := by
      rw [hfp, hFe]
    have hz : (pass1 rows params params.samplingInterval).population_size
        = 0 := by
      rw [pass1_population_size, hFe]
      rfl
    simp [generateSampleStreaming, generateSample, hb, hz]
  · have hFpos : ∀ t ∈ (processRows rows).filter (inclP params),
        0 ≤ t.amount_abs := by
      intro t ht
      exact processRowsGo_abs_nonneg rows 0 t (List.mem_filter.1 ht).1
    have hdistF : ((processRows rows).filter (inclP params)).Pairwise
        (fun a b => a.source_row_index ≠ b.source_row_index) :=
      (processRowsGo_pairwise rows 0).sublist (List.filter_sublist _)
    have hCpos : ∀ t ∈ ((processRows rows).filter (inclP params)).filter
        (fun t => t.amount_abs ≤ params.samplingInterval),
        0 ≤ t.amount_abs := by
      intro t ht
      exact hFpos t (List.mem_filter.1 ht).1
    have hcands : excludeTransactions
        ((processRows rows).filter (inclP params))
        (selectHighValue ((processRows rows).filter (inclP params))
          params.samplingInterval)
        = ((processRows rows).filter (inclP params)).filter
          (fun t => t.amount_abs ≤ params.samplingInterval) :=
      excludeTransactions_selectHighValue _ _ hdistF
    have hremnn : 0 ≤ streamRemaining rows params := by
      rw [streamRemaining_eq_candidates]
      exact amounts_sum_nonneg _ hCpos
    obtain ⟨hksz, hknn⟩ := streamRandomSize_eq (streamRemaining rows params)
      params.samplingInterval hremnn hi
    have hk : streamK rows params
        = (⌊((((processRows rows).filter (inclP params)).filter
            (fun t => t.amount_abs ≤ params.samplingInterval)).map
              (fun t => t.amount_abs)).sum / params.samplingInterval
            + 9999 / 10000⌋).toNat := by
      unfold streamK
      rw [max_eq_right hknn, hksz, streamRemaining_eq_candidates]
    have hres_len : (streamReservoir rows params).length
        = min (streamK rows params)
          ((((processRows rows).filter (inclP params)).filter
            (fun t => t.amount_abs ≤ params.samplingInterval)).length) := by
      unfold streamReservoir
      by_cases hk0 : streamK rows params > 0
      · rw [if_pos hk0]
        have h2 := pass2Go_len params params.samplingInterval
          (streamK rows params) rows 0
          { seen := 0, reservoir := [],
            rng := PyRandom.new params.random_seed } (by simp)
        simpa [processRows] using h2
      · rw [if_neg hk0]
        have : streamK rows params = 0 := by omega
        rw [this]
        simp
    have hbatch_len : (selectRandomSample
        ((((processRows rows).filter (inclP params)).filter
          (fun t => t.amount_abs ≤ params.samplingInterval)))
        params.samplingInterval params.random_seed).length
        = min ((⌊((((processRows rows).filter (inclP params)).filter
            (fun t => t.amount_abs ≤ params.samplingInterval)).map
              (fun t => t.amount_abs)).sum / params.samplingInterval
            + 9999 / 10000⌋).toNat)
          ((((processRows rows).filter (inclP params)).filter
            (fun t => t.amount_abs ≤ params.samplingInterval)).length) :=
      selectRandomSample_length _ _ _ hCpos hi
    have hbne : (filterPopulation (processRows rows) params).1 ≠ [] := by
      rw [hfp]
      exact hFe
    have hpne : (pass1 rows params params.samplingInterval).population_size
        ≠ 0 := by
      rw [pass1_population_size]
      intro h0
      exact hFe (List.length_eq_zero.1 h0)
    obtain ⟨out_s, hos⟩ : ∃ out,
        generateSampleStreaming rows params = Except.ok out := by
      simp only [generateSampleStreaming, hpne, ite_false, if_false]
      exact ⟨_, rfl⟩
    obtain ⟨out_b, hob⟩ : ∃ out,
        generateSample (processRows rows) params = Except.ok out := by
      simp only [generateSample, hbne, ite_false, if_false]
      exact ⟨_, rfl⟩
    rcases out_s with ⟨sample_s, stats_s⟩
    rcases out_b with ⟨sample_b, stats_b⟩
    obtain ⟨-, -, hrsc_s, -, -, -, -⟩ :=
      generateSampleStreaming_ok_parts rows params sample_s stats_s hos
    obtain ⟨-, hsample_b, hstats_b⟩ :=
      generateSample_ok_parts (processRows rows) params sample_b stats_b hob
    have hrsc_b : stats_b.random_sample_count
        = (selectRandomSample
            (excludeTransactions
              ((processRows rows).filter (inclP params))
              (selectHighValue ((processRows rows).filter (inclP params))
                params.samplingInterval))
            params.samplingInterval params.random_seed).length := by
      rw [hstats_b, hsample_b, hfp]
      show ((selectHighValue ((processRows rows).filter (inclP params))
            params.samplingInterval ++
          selectRandomSample _ params.samplingInterval
            params.random_seed).filter
          (fun t => t.selection_type = some SelectionType.random)).length
        = _
      rw [List.filter_append,
        filter_label_all _ SelectionType.random
          (fun t ht => selectRandomSample_label _ _ _ t ht),
        filter_label_none _ SelectionType.highValue SelectionType.random
          (by simp) (fun t ht => selectHighValue_label _ _ t ht)]
      simp
    rw [hos, hob]
    simp only [Except.map]
    congr 1
    rw [hrsc_s, hres_len, hrsc_b, hcands, hbatch_len, hk]

/-- Witness for C2 at a concrete input: a two-row population, interval 90;
both engines select a random stratum of the same size. -/
theorem streaming_batch_random_size_parity_witness :
    Except.map (fun out => out.2.random_sample_count)
        (generateSampleStreaming [exRow (some 100), exRow (some 50)]
          exParams)
      = Except.map (fun out => out.2.random_sample_count)
        (generateSample (processRows [exRow (some 100), exRow (some 50)])
          exParams) :=
  streaming_batch_random_size_parity [exRow (some 100), exRow (some 50)]
    exParams (by norm_num [SamplingParameters.samplingInterval, exParams])

/-- C1 counterexample: the claimed sizing rule
`target_size = ceil(remaining_balance / interval)`, capped at the candidate
count, is falsified at two candidates of absolute amount 20001 with interval
40000 — `remaining/interval = 1.00005`, so the claimed size is
`min(ceil, 2) = 2`, but the engine (computing `int(1.00005 + 0.9999) = 1`)
selects 1 record. -/
theorem random_stratum_size_not_ceil :
    (selectRandomSample [exTxn 20001 0, exTxn 20001 1] 40000 42).length = 1
    ∧ min ((⌈(([exTxn 20001 0, exTxn 20001 1].map
          (fun t => t.amount_abs)).sum / 40000 : ℚ)⌉).toNat)
        ([exTxn 20001 0, exTxn 20001 1].length) = 2 := by
  have hsum : (([exTxn 20001 0, exTxn 20001 1].map
      (fun t => t.amount_abs)).sum : ℚ) = 40002 := by
    simp [exTxn]
    norm_num
  constructor
  · rw [selectRandomSample_length _ 40000 42
      (by simp [exTxn]) (by norm_num), hsum]
    have hfl : ⌊(40002 / 40000 + 9999 / 10000 : ℚ)⌋ = 1 := by
      rw [Int.floor_eq_iff] <;> norm_num
    rw [hfl]
    rfl
  · rw [hsum]
    have hcl : ⌈(40002 / 40000 : ℚ)⌉ = 2 := by
      rw [Int.ceil_eq_iff] <;> norm_num
    rw [hcl]
    rfl

/-- C1 (amended): the size of the random stratum is
`int(remaining_balance / interval + 0.9999)` — i.e.
`⌊remaining_balance / interval + 9999/10000⌋` — capped at the number of
candidates, and the streaming sampler applies the same `0.9999` rounding
rule to its pass-1 aggregate.  (This agrees with the claimed `ceil` except
when the fractional part of the ratio lies in `(0, 1/10000)`.) -/
theorem random_stratum_size_formula :
    (∀ (ts : List CleanedTransaction) (interval : ℚ) (seed : ℕ),
        (∀ t ∈ ts, 0 ≤ t.amount_abs) → 0 < interval →
        (selectRandomSample ts interval seed).length
          = min ((⌊(ts.map (fun t => t.amount_abs)).sum / interval
              + 9999 / 10000⌋).toNat) ts.length)
    ∧ (∀ remaining_abs interval : ℚ, 0 ≤ remaining_abs → 0 < interval →
        streamRandomSize remaining_abs interval
          = ⌊remaining_abs / interval + 9999 / 10000⌋) := by
  constructor
  · intro ts interval seed hpos hi
    exact selectRandomSample_length ts interval seed hpos hi
  · intro r i hr hi
    exact (streamRandomSize_eq r i hr hi).1

/-- Witness for the amended C1 at a concrete input: one candidate of
absolute amount 100 against interval 90. -/
theorem random_stratum_size_formula_witness :
    (selectRandomSample [exTxn 100 0] 90 1).length
      = min ((⌊(([exTxn 100 0].map (fun t => t.amount_abs)).sum / 90
          + 9999 / 10000 : ℚ)⌋).toNat) ([exTxn 100 0].length) :=
  random_stratum_size_formula.1 [exTxn 100 0] 90 1
    (by simp [exTxn]) (by norm_num)

/-- Parameters accepted by pydantic always yield a positive sampling
interval, so the positivity hypotheses of the sizing theorems are met on
every constructible parameter set. -/
theorem samplingInterval_pos_of_valid (p : SamplingParameters)
    (h : p.Valid) : 0 < p.samplingInterval := by
  obtain ⟨ht, he, ha, hlt, ho⟩ := h
  unfold SamplingParameters.samplingInterval
  cases hov : p.high_value_override with
  | none => exact div_pos (by linarith) ha
  | some o =>
      rw [hov] at ho
      exact ho
